import Mathlib

/-!
Verification of the repository-ingestion cache/pipeline and the chat
tool-call orchestration of the Ingest service.

The TypeScript sources are shallowly embedded:
* `RepomixService.generateCacheKey` uses Node's `crypto` SHA-256; the hash
  is implemented here bit-for-bit over the UTF-8 bytes of the input.
* The cache directory is modelled as two key-indexed partial maps (one for
  the `<key>.txt` content file, one for the `<key>.json` metadata sidecar).
* Effectful steps (GitHub API fetch, `git clone`, `git rev-parse`,
  `repomix`, file reads, cache writes) are driven by an oracle `Env`
  describing each step's outcome; `processRepo` mirrors the source's
  control flow (including the `try`/`catch` cleanup) and records a trace
  of observable side effects.
-/

/-! ### SHA-256 over byte lists (Node `crypto.createHash('sha256')`) -/

/-- Lower-case hexadecimal digit, as produced by Node's `digest('hex')`. -/
def hexChar (n : Nat) : Char :=
  if n < 10 then Char.ofNat (48 + n) else Char.ofNat (87 + n)

/-- A 32-bit word printed as exactly eight lower-case hex digits. -/
def toHex8 (n : Nat) : String :=
  String.mk ((List.range 8).map (fun i => hexChar ((n >>> (28 - 4 * i)) &&& 15)))

def add32 (x y : Nat) : Nat := (x + y) % 4294967296

def rotr32 (n x : Nat) : Nat :=
  ((x >>> n) ||| (x <<< (32 - n))) % 4294967296

def shaCh (x y z : Nat) : Nat := (x &&& y) ^^^ ((x ^^^ 4294967295) &&& z)

def shaMaj (x y z : Nat) : Nat := (x &&& y) ^^^ (x &&& z) ^^^ (y &&& z)

def bigSigma0 (x : Nat) : Nat := (rotr32 2 x) ^^^ (rotr32 13 x) ^^^ (rotr32 22 x)

def bigSigma1 (x : Nat) : Nat := (rotr32 6 x) ^^^ (rotr32 11 x) ^^^ (rotr32 25 x)

def smallSigma0 (x : Nat) : Nat := (rotr32 7 x) ^^^ (rotr32 18 x) ^^^ (x >>> 3)

def smallSigma1 (x : Nat) : Nat := (rotr32 17 x) ^^^ (rotr32 19 x) ^^^ (x >>> 10)

/-- The 64 SHA-256 round constants (decimal). -/
def shaK : List Nat :=
  [1116352408, 1899447441, 3049323471, 3921009573, 961987163,
   1508970993, 2453635748, 2870763221, 3624381080, 310598401,
   607225278, 1426881987, 1925078388, 2162078206, 2614888103,
   3248222580, 3835390401, 4022224774, 264347078, 604807628,
   770255983, 1249150122, 1555081692, 1996064986, 2554220882,
   2821834349, 2952996808, 3210313671, 3336571891, 3584528711,
   113926993, 338241895, 666307205, 773529912, 1294757372,
   1396182291, 1695183700, 1986661051, 2177026350, 2456956037,
   2730485921, 2820302411, 3259730800, 3345764771, 3516065817,
   3600352804, 4094571909, 275423344, 430227734, 506948616,
   659060556, 883997877, 958139571, 1322822218, 1537002063,
   1747873779, 1955562222, 2024104815, 2227730452, 2361852424,
   2428436474, 2756734187, 3204031479, 3329325298]

/-- Running hash state: eight 32-bit words. -/
structure H8 where
  h0 : Nat
  h1 : Nat
  h2 : Nat
  h3 : Nat
  h4 : Nat
  h5 : Nat
  h6 : Nat
  h7 : Nat
deriving Repr, DecidableEq

def shaInit : H8 :=
  ⟨1779033703, 3144134277, 1013904242, 2773480762,
   1359893119, 2600822924, 528734635, 1541459225⟩

/-- One compression round on the working variables. -/
def shaRound (s : H8) (kw : Nat × Nat) : H8 :=
  let t1 := (s.h7 + bigSigma1 s.h4 + shaCh s.h4 s.h5 s.h6 + kw.1 + kw.2) % 4294967296
  let t2 := (bigSigma0 s.h0 + shaMaj s.h0 s.h1 s.h2) % 4294967296
  ⟨(t1 + t2) % 4294967296, s.h0, s.h1, s.h2, (s.h3 + t1) % 4294967296, s.h4, s.h5, s.h6⟩

/-- Big-endian packing of bytes into 32-bit words. -/
def toWords : List Nat → List Nat
  | a :: b :: c :: d :: rest => (a * 16777216 + b * 65536 + c * 256 + d) :: toWords rest
  | _ => []

/-- One message-schedule extension step (appends W[t] for t ≥ 16). -/
def extendStep (ws : List Nat) : List Nat :=
  let n := ws.length
  ws ++ [(ws.getD (n - 16) 0 + smallSigma0 (ws.getD (n - 15) 0) +
          ws.getD (n - 7) 0 + smallSigma1 (ws.getD (n - 2) 0)) % 4294967296]

def extendTo64 (ws : List Nat) : List Nat :=
  (List.range 48).foldl (fun acc _ => extendStep acc) ws

/-- Compress one 64-byte block into the running hash. -/
def compressBlock (h : H8) (block : List Nat) : H8 :=
  let w := extendTo64 (toWords block)
  let s := (shaK.zip w).foldl shaRound h
  ⟨add32 h.h0 s.h0, add32 h.h1 s.h1, add32 h.h2 s.h2, add32 h.h3 s.h3,
   add32 h.h4 s.h4, add32 h.h5 s.h5, add32 h.h6 s.h6, add32 h.h7 s.h7⟩

/-- 64-bit big-endian encoding of the message bit length. -/
def bigEndian8 (n : Nat) : List Nat :=
  [(n >>> 56) % 256, (n >>> 48) % 256, (n >>> 40) % 256, (n >>> 32) % 256,
   (n >>> 24) % 256, (n >>> 16) % 256, (n >>> 8) % 256, n % 256]

/-- SHA-256 padding: a 0x80 byte, zeros, then the 64-bit bit length. -/
def padBytes (msg : List Nat) : List Nat :=
  msg ++ [128] ++ List.replicate ((64 - ((msg.length + 9) % 64)) % 64) 0 ++
    bigEndian8 (msg.length * 8)

/-- Split a byte list into 64-byte blocks (fuel-indexed, fuel = length). -/
def chunksAux : Nat → List Nat → List (List Nat)
  | 0, _ => []
  | _, [] => []
  | fuel + 1, l => l.take 64 :: chunksAux fuel (l.drop 64)

def chunks64 (l : List Nat) : List (List Nat) := chunksAux l.length l

/-- Full SHA-256, hex-encoded, of a byte list. -/
def sha256hex (msg : List Nat) : String :=
  let h := (chunks64 (padBytes msg)).foldl compressBlock shaInit
  toHex8 h.h0 ++ toHex8 h.h1 ++ toHex8 h.h2 ++ toHex8 h.h3 ++
  toHex8 h.h4 ++ toHex8 h.h5 ++ toHex8 h.h6 ++ toHex8 h.h7

/-- UTF-8 encoding of one character, as `Buffer.from(s, 'utf8')` would produce. -/
def utf8Bytes (c : Char) : List Nat :=
  let n := c.toNat
  if n < 128 then [n]
  else if n < 2048 then [192 ||| (n >>> 6), 128 ||| (n &&& 63)]
  else if n < 65536 then
    [224 ||| (n >>> 12), 128 ||| ((n >>> 6) &&& 63), 128 ||| (n &&& 63)]
  else
    [240 ||| (n >>> 18), 128 ||| ((n >>> 12) &&& 63),
     128 ||| ((n >>> 6) &&& 63), 128 ||| (n &&& 63)]

def strBytes (s : String) : List Nat := s.data.flatMap utf8Bytes

/-- `RepomixService.generateCacheKey`: SHA-256 hex digest of `repoUrl:commitSha`. -/
def generateCacheKey (repoUrl : String) (commitSha : String := "latest") : String :=
  sha256hex (strBytes (repoUrl ++ ":" ++ commitSha))

/-! ### String helpers mirroring the JavaScript operations used -/

/-- JS `str.replace(pat, '')` with a string pattern: removes the FIRST
occurrence of `pat` only (used for `.replace('.git', '')`). -/
def removeFirstAux (pat : List Char) : List Char → List Char
  | [] => []
  | c :: rest =>
    if pat.isPrefixOf (c :: rest) then (c :: rest).drop pat.length
    else c :: removeFirstAux pat rest

def removeFirst (s pat : String) : String :=
  String.mk (removeFirstAux pat.data s.data)

/-- JS `str.includes(pat)`. -/
def containsSubAux (pat : List Char) : List Char → Bool
  | [] => pat.isPrefixOf ([] : List Char)
  | c :: rest => pat.isPrefixOf (c :: rest) || containsSubAux pat rest

def containsSub (s pat : String) : Bool := containsSubAux pat.data s.data

/-- JS `str.split('/')` (single-character separator): splits on every
occurrence, keeping empty fields. -/
def splitSlashAux : List Char → List Char → List (List Char)
  | [], acc => [acc.reverse]
  | c :: rest, acc =>
    if c = '/' then acc.reverse :: splitSlashAux rest []
    else splitSlashAux rest (c :: acc)

def splitSlash (s : String) : List String :=
  (splitSlashAux s.data []).map String.mk

/-- Last element of a list with a default (`.pop()` on a JS array). -/
def lastD : List String → String → String
  | [], d => d
  | [x], _ => x
  | _ :: y :: rest, d => lastD (y :: rest) d

def isJsSpace (c : Char) : Bool :=
  c = ' ' || c = '\t' || c = '\n' || c = '\r' || c = '\x0b' || c = '\x0c'

/-- JS `str.trim()`: strip whitespace from both ends. -/
def trimStr (s : String) : String :=
  String.mk (((s.data.dropWhile isJsSpace).reverse.dropWhile isJsSpace).reverse)

/-- Attempt the regex `github\.com\/([^\/]+)\/([^\/]+)` anchored at the head
of the character list: the literal `github.com/`, then a maximal nonempty
run of non-slash characters, a slash, and a second nonempty run. -/
def ghMatchAt (l : List Char) : Option (String × String) :=
  let pat := "github.com/".data
  if pat.isPrefixOf l then
    let rest := l.drop pat.length
    let owner := rest.takeWhile (· ≠ '/')
    if owner.isEmpty then none
    else
      match rest.drop owner.length with
      | '/' :: rest2 =>
        let repo := rest2.takeWhile (· ≠ '/')
        if repo.isEmpty then none
        else some (String.mk owner, String.mk repo)
      | _ => none
  else none

/-- Leftmost match of the regex, as `String.prototype.match` finds it. -/
def ghMatchAux : List Char → Option (String × String)
  | [] => none
  | c :: rest =>
    match ghMatchAt (c :: rest) with
    | some p => some p
    | none => ghMatchAux rest

/-- `repoUrl.match(/github\.com\/([^\/]+)\/([^\/]+)/)`, returning the two
capture groups (owner, repo) of the leftmost match. -/
def matchGithub (repoUrl : String) : Option (String × String) :=
  ghMatchAux repoUrl.data

/-! ### The cache data model (`<key>.txt` + `<key>.json` under `cacheDir`) -/

/-- `RepoMetadata` from `src/types`. -/
structure RepoMetadata where
  repoUrl : String
  commitSha : String
  size : Nat
  cachedAt : String
deriving Repr, DecidableEq

/-- `Partial<RepoMetadata>`: every field optional.  `saveToCache` reads only
`repoUrl` and `commitSha`; `size` and `cachedAt` are always recomputed. -/
structure PartialRepoMetadata where
  repoUrl : Option String := none
  commitSha : Option String := none
  size : Option Nat := none
  cachedAt : Option String := none
deriving Repr, DecidableEq

/-- Contents of a `<key>.json` sidecar on disk: either JSON that parses to a
`RepoMetadata`, or bytes on which `JSON.parse` throws. -/
inductive MetaFile where
  | valid (m : RepoMetadata)
  | corrupt
deriving Repr, DecidableEq

/-- The cache directory: for each cache key, the optional content file
`<key>.txt` and the optional metadata sidecar `<key>.json`. -/
structure CacheFS where
  contentFiles : String → Option String
  metaFiles : String → Option MetaFile

def emptyFS : CacheFS := ⟨fun _ => none, fun _ => none⟩

def writeContent (fs : CacheFS) (key content : String) : CacheFS :=
  { fs with contentFiles := fun k => if k = key then some content else fs.contentFiles k }

def writeMeta (fs : CacheFS) (key : String) (m : MetaFile) : CacheFS :=
  { fs with metaFiles := fun k => if k = key then some m else fs.metaFiles k }

/-- The full metadata record `saveToCache` writes: caller-supplied
`repoUrl`/`commitSha` defaulted to `''`, `size` = content length,
`cachedAt` = current ISO timestamp. -/
def fullMetadata (meta : PartialRepoMetadata) (content : String) (nowIso : String) :
    RepoMetadata :=
  { repoUrl := meta.repoUrl.getD ""
    commitSha := meta.commitSha.getD ""
    size := content.length
    cachedAt := nowIso }

/-- `RepomixService.saveToCache` (the successful run): write the content
file, then the metadata sidecar. -/
def saveToCache (fs : CacheFS) (cacheKey content : String)
    (metadata : PartialRepoMetadata) (nowIso : String) : CacheFS :=
  writeMeta (writeContent fs cacheKey content) cacheKey
    (.valid (fullMetadata metadata content nowIso))

/-- `CachedRepo` from `src/types`. -/
structure CachedRepo where
  content : String
  metadata : RepoMetadata
deriving Repr, DecidableEq

/-- `RepomixService.loadFromCache`: `null` when the content file is absent;
otherwise the content together with the parsed sidecar metadata, falling
back to a synthesized record (size = content length, timestamp = now) when
the sidecar is missing or does not parse. -/
def loadFromCache (fs : CacheFS) (cacheKey : String) (nowIso : String) :
    Option CachedRepo :=
  match fs.contentFiles cacheKey with
  | none => none
  | some content =>
    let metadata : RepoMetadata :=
      match fs.metaFiles cacheKey with
      | some (.valid m) => m
      | _ => { repoUrl := "", commitSha := "", size := content.length, cachedAt := nowIso }
    some { content := content, metadata := metadata }

/-! ### Oracle environment for the effectful steps -/

/-- Outcome of one `fetch(url)` against the GitHub API: an OK response with
a JSON body carrying `sha`, a non-OK response, or a network rejection. -/
inductive ApiResult where
  | ok (sha : String)
  | notOk
  | netErr
deriving Repr, DecidableEq

/-- Outcome of a `saveToCache` run: both writes succeed, the content write
throws (no file written), or the metadata write throws (content file
already on disk — the two writes are not atomic). -/
inductive SaveOutcome where
  | okSave
  | failAtContent
  | failAtMeta
deriving Repr, DecidableEq

/-- Oracle describing the outcome of each effectful step of one
`processRepo` run, plus ambient data (clock, temp dir). -/
structure Env where
  /-- Response of `fetch` per request URL. -/
  apiResponse : String → ApiResult
  /-- Does `git clone --depth 1` succeed? -/
  cloneOk : Bool
  /-- `git rev-parse HEAD` stdout, `none` when the subprocess fails. -/
  revParse : Option String
  /-- Do `repomix` and the subsequent `fs.access` of its output succeed? -/
  packOk : Bool
  /-- Contents of the repomix output file; `none` when reading it throws. -/
  readContent : Option String
  /-- Outcome of the `saveToCache` writes. -/
  saveOutcome : SaveOutcome
  /-- `Date.now()` used in the workspace directory name. -/
  nowMs : Nat
  /-- `new Date().toISOString()` used in metadata records. -/
  nowIso : String
  /-- `TEMP_DIR` (defaults to `./temp`). -/
  tempDir : String

/-- `RepomixService.getLatestCommitShaFromGithub`: parse the URL, query the
API for `main`, fall back to `master` on a non-OK response, and on any
failure return the sentinel revision `latest` instead of throwing. -/
def getLatestCommitShaFromGithub (env : Env) (repoUrl : String) : String :=
  match matchGithub repoUrl with
  | none => "latest"
  | some (owner, repo) =>
    let cleanRepo := removeFirst repo ".git"
    let apiUrl := "https://api.github.com/repos/" ++ owner ++ "/" ++ cleanRepo ++ "/commits/main"
    match env.apiResponse apiUrl with
    | .ok sha => sha
    | .netErr => "latest"
    | .notOk =>
      let masterUrl :=
        "https://api.github.com/repos/" ++ owner ++ "/" ++ cleanRepo ++ "/commits/master"
      match env.apiResponse masterUrl with
      | .ok sha => sha
      | _ => "latest"

/-- The workspace path `cloneRepo` chooses:
`path.join(tempDir, repoName-timestamp)` with
`repoName = repoUrl.split('/').pop()?.replace('.git', '') || 'repo'`. -/
def repoPathOf (env : Env) (repoUrl : String) : String :=
  let last := lastD (splitSlash repoUrl) ""
  let name := removeFirst last ".git"
  let repoName := if name = "" then "repo" else name
  env.tempDir ++ "/" ++ repoName ++ "-" ++ toString env.nowMs

/-- `RepomixService.getCommitSha`: `git rev-parse HEAD` stdout trimmed, or
the sentinel `latest` when the subprocess fails (error is caught). -/
def getCommitSha (env : Env) : String :=
  match env.revParse with
  | some stdout => trimStr stdout
  | none => "latest"

/-! ### The pipeline `processRepo`, with a trace of observable effects -/

/-- `RepoProcessResult` from `src/types` (optional fields are spread from
cached metadata on a hit; `cachedAt` is absent on the miss path). -/
structure RepoProcessResult where
  cacheKey : String
  fromCache : Bool
  repoUrl : Option String := none
  commitSha : Option String := none
  size : Option Nat := none
  cachedAt : Option String := none
deriving Repr, DecidableEq

/-- Observable side effects of a pipeline run. -/
inductive Event where
  /-- `git clone` created the workspace directory `p`. -/
  | cloned (p : String)
  /-- `cleanup(p)` removed the workspace directory `p`. -/
  | cleanedUp (p : String)
  /-- the `repomix` subprocess was invoked against `p`. -/
  | packAttempted (p : String)
  /-- `saveToCache` completed for `key`. -/
  | savedCache (key : String)
deriving Repr, DecidableEq

def isOkResult (r : Except String RepoProcessResult) : Bool :=
  match r with
  | .ok _ => true
  | .error _ => false

/-- Result of one `processRepo` run: the returned value or thrown error,
the cache directory afterwards, the workspace directories still existing
afterwards, and the event trace. -/
structure RunOutcome where
  result : Except String RepoProcessResult
  fs : CacheFS
  dirs : List String
  trace : List Event

/-- The `try` block of `processRepo` (everything after the first cache
check), before the `catch` handler runs: `repoPath` records whether the
clone step returned a path, and `dirs` the directories existing when the
block exits. -/
structure TryOut where
  res : Except String RepoProcessResult
  fs : CacheFS
  dirs : List String
  trace : List Event
  repoPath : Option String

/-- The body of `processRepo`'s `try` block: clone, authoritative
`rev-parse`, second cache check (cleanup + cached return on hit), pack,
read, save, cleanup, return. Failures return the thrown error without
running any cleanup (that is the `catch` handler's job). -/
def processRepoTry (env : Env) (fs0 : CacheFS) (repoUrl : String)
    (forceRefresh : Bool) : TryOut :=
  if env.cloneOk then
    let p := repoPathOf env repoUrl
    let commitSha := getCommitSha env
    let cacheKey := generateCacheKey repoUrl commitSha
    let hit := if forceRefresh then none else loadFromCache fs0 cacheKey env.nowIso
    match hit with
    | some cached =>
      { res := .ok { cacheKey := cacheKey, fromCache := true,
                     repoUrl := some cached.metadata.repoUrl,
                     commitSha := some cached.metadata.commitSha,
                     size := some cached.metadata.size,
                     cachedAt := some cached.metadata.cachedAt },
        fs := fs0, dirs := [], trace := [.cloned p, .cleanedUp p], repoPath := some p }
    | none =>
      if env.packOk then
        match env.readContent with
        | some content =>
          let meta : PartialRepoMetadata :=
            { repoUrl := some repoUrl, commitSha := some commitSha,
              size := some content.length }
          match env.saveOutcome with
          | .okSave =>
            { res := .ok { cacheKey := cacheKey, fromCache := false,
                           repoUrl := some repoUrl, commitSha := some commitSha,
                           size := some content.length },
              fs := saveToCache fs0 cacheKey content meta env.nowIso,
              dirs := [],
              trace := [.cloned p, .packAttempted p, .savedCache cacheKey, .cleanedUp p],
              repoPath := some p }
          | .failAtContent =>
            { res := .error "Failed to save to cache", fs := fs0, dirs := [p],
              trace := [.cloned p, .packAttempted p], repoPath := some p }
          | .failAtMeta =>
            { res := .error "Failed to save to cache",
              fs := writeContent fs0 cacheKey content, dirs := [p],
              trace := [.cloned p, .packAttempted p], repoPath := some p }
        | none =>
          { res := .error "Failed to read packed repo", fs := fs0, dirs := [p],
            trace := [.cloned p, .packAttempted p], repoPath := some p }
      else
        { res := .error "Failed to pack repository", fs := fs0, dirs := [p],
          trace := [.cloned p, .packAttempted p], repoPath := some p }
  else
    { res := .error "Failed to clone repository", fs := fs0, dirs := [],
      trace := [], repoPath := none }

/-- `RepomixService.processRepo`: optimistic revision resolution, first
cache check, then the `try` block with a `catch` handler that runs
`cleanup(repoPath)` whenever the clone step had returned a path before the
error was rethrown. -/
def processRepo (env : Env) (fs0 : CacheFS) (repoUrl : String)
    (forceRefresh : Bool) : RunOutcome :=
  let commitSha := getLatestCommitShaFromGithub env repoUrl
  let cacheKey := generateCacheKey repoUrl commitSha
  let hit := if forceRefresh then none else loadFromCache fs0 cacheKey env.nowIso
  match hit with
  | some cached =>
    { result := .ok { cacheKey := cacheKey, fromCache := true,
                      repoUrl := some cached.metadata.repoUrl,
                      commitSha := some cached.metadata.commitSha,
                      size := some cached.metadata.size,
                      cachedAt := some cached.metadata.cachedAt },
      fs := fs0, dirs := [], trace := [] }
  | none =>
    let t := processRepoTry env fs0 repoUrl forceRefresh
    match t.res with
    | .ok r => { result := .ok r, fs := t.fs, dirs := t.dirs, trace := t.trace }
    | .error e =>
      match t.repoPath with
      | some p =>
        { result := .error e, fs := t.fs, dirs := t.dirs.erase p,
          trace := t.trace ++ [.cleanedUp p] }
      | none => { result := .error e, fs := t.fs, dirs := t.dirs, trace := t.trace }

/-! ### The chat orchestrator (`POST /api/chat`) and repo routes -/

/-- A conversation message.  The model's parsed tool invocations are kept
alongside the message in `GroqResponse` rather than re-parsed from a raw
`tool_calls` JSON array. -/
structure ChatMessage where
  role : String
  content : String
  tcId : Option String := none
deriving Repr, DecidableEq

/-- `ParsedToolCall`: `{id, name, arguments}` with the two argument fields
the `pack_repository` tool schema declares. -/
structure ParsedToolCall where
  id : String
  name : String
  repoUrl : String
  forceRefresh : Option Bool := none
deriving Repr, DecidableEq

/-- A Groq chat response: the assistant message and the tool invocations
parsed from it (`hasToolCalls` ⟺ the list is nonempty). -/
structure GroqResponse where
  message : ChatMessage
  toolCallsOf : List ParsedToolCall := []
deriving Repr, DecidableEq

/-- `ToolCallResult` from `src/types`: the invocation paired with either a
result or an error message. -/
structure ToolCallResult where
  tool : String
  repoUrl : String
  forceRefresh : Option Bool
  result : Option RepoProcessResult
  error : Option String
deriving Repr, DecidableEq

/-- Stand-in for `JSON.stringify(result)` in the tool message (no claim
inspects this string, only that the message is appended). -/
def encodeResult (r : RepoProcessResult) : String :=
  "cacheKey=" ++ r.cacheKey ++ ";fromCache=" ++ toString r.fromCache ++
  ";repoUrl=" ++ (r.repoUrl.getD "") ++ ";commitSha=" ++ (r.commitSha.getD "") ++
  ";size=" ++ toString (r.size.getD 0) ++ ";cachedAt=" ++ (r.cachedAt.getD "")

/-- Oracle for the chat turn: the pipeline oracle plus the model client's
responses (first call with tools and optional context, second call without
tools and with freshly loaded context). -/
structure ChatEnv where
  penv : Env
  firstResp : List ChatMessage → Option String → GroqResponse
  secondResp : List ChatMessage → String → GroqResponse

/-- Mutable state of the tool-call loop in the chat handler. -/
structure LoopState where
  fs : CacheFS
  messages : List ChatMessage
  response : GroqResponse
  toolCalls : List ToolCallResult
  finalCacheKey : Option String
  /-- number of model calls made so far in this turn -/
  modelCalls : Nat
  trace : List Event

/-- One iteration of `for (const call of parsedCalls)`: invocations whose
name is not `pack_repository` fall through the `if` with no effect; for
`pack_repository`, run the pipeline, record result or error, and on
success append the tool messages and (when the fresh cache entry loads)
make the second model call. -/
def stepCall (cenv : ChatEnv) (st : LoopState) (call : ParsedToolCall) : LoopState :=
  if call.name = "pack_repository" then
    let out := processRepo cenv.penv st.fs call.repoUrl (call.forceRefresh.getD false)
    match out.result with
    | .ok result =>
      let msgs := st.messages ++
        [st.response.message,
         { role := "tool", content := encodeResult result, tcId := some call.id }]
      let st1 : LoopState :=
        { st with
          fs := out.fs
          messages := msgs
          toolCalls := st.toolCalls ++
            [{ tool := call.name, repoUrl := call.repoUrl,
               forceRefresh := call.forceRefresh, result := some result, error := none }]
          trace := st.trace ++ out.trace }
      match loadFromCache out.fs result.cacheKey cenv.penv.nowIso with
      | some cachedData =>
        { st1 with
          response := cenv.secondResp msgs cachedData.content
          finalCacheKey := some result.cacheKey
          modelCalls := st.modelCalls + 1 }
      | none => st1
    | .error e =>
      { st with
        fs := out.fs
        toolCalls := st.toolCalls ++
          [{ tool := call.name, repoUrl := call.repoUrl,
             forceRefresh := call.forceRefresh, result := none, error := some e }]
        trace := st.trace ++ out.trace }
  else st

def runLoop (cenv : ChatEnv) (st : LoopState) (calls : List ParsedToolCall) : LoopState :=
  calls.foldl (stepCall cenv) st

/-- What the chat handler returns to the client. -/
structure ChatOut where
  response : String
  toolCalls : List ToolCallResult
  cacheKey : Option String
  trace : List Event

/-- The body of `POST /api/chat` after request validation: preload context
for a caller-supplied cache key (discarding it on a miss), make the first
model call with the tool schema, run the tool loop, and assemble the
response from whatever `response` holds afterwards. -/
def chatTurn (cenv : ChatEnv) (fs0 : CacheFS) (history : List ChatMessage)
    (userMessage : String) (cacheKey0 : Option String) : ChatOut :=
  let messages := history ++ [{ role := "user", content := userMessage }]
  let preload :=
    match cacheKey0 with
    | some k =>
      match loadFromCache fs0 k cenv.penv.nowIso with
      | some cached => (some k, some cached.content)
      | none => (none, none)
    | none => (none, none)
  let response0 := cenv.firstResp messages preload.2
  let st0 : LoopState :=
    { fs := fs0, messages := messages, response := response0, toolCalls := [],
      finalCacheKey := preload.1, modelCalls := 1, trace := [] }
  let stF := runLoop cenv st0 response0.toolCallsOf
  { response := stF.response.message.content, toolCalls := stF.toolCalls,
    cacheKey := stF.finalCacheKey, trace := stF.trace }

/-- Outcome of `POST /api/repo/pack`. -/
structure PackOut where
  status : Nat
  error : Option String
  result : Option RepoProcessResult
  fs : CacheFS
  trace : List Event

/-- The `POST /api/repo/pack` handler: reject a missing/empty `repoUrl`
(400), reject URLs not containing `github.com` (400, descriptive error,
before any pipeline work), otherwise run `processRepo` and wrap its result
or error. -/
def packHandler (env : Env) (fs : CacheFS) (repoUrl : Option String)
    (forceRefresh : Bool) : PackOut :=
  match repoUrl with
  | none => { status := 400, error := some "repoUrl is required", result := none,
              fs := fs, trace := [] }
  | some u =>
    if u = "" then
      { status := 400, error := some "repoUrl is required", result := none,
        fs := fs, trace := [] }
    else if containsSub u "github.com" then
      let out := processRepo env fs u forceRefresh
      match out.result with
      | .ok r => { status := 200, error := none, result := some r,
                   fs := out.fs, trace := out.trace }
      | .error e => { status := 500, error := some e, result := none,
                      fs := out.fs, trace := out.trace }
    else
      { status := 400, error := some "Only GitHub URLs are supported currently",
        result := none, fs := fs, trace := [] }

/-! ### Shared lemmas -/

theorem toHex8_length (n : Nat) : (toHex8 n).length = 8 := by
  simp [toHex8, String.length]

theorem sha256hex_length (msg : List Nat) : (sha256hex msg).length = 64 := by
  unfold sha256hex
  simp [String.length_append, toHex8_length]

/-! ### Claims -/

/-- Claim C3: for every cache key, content string and partial metadata,
`loadFromCache` after `saveToCache` returns the content byte-identical to
the input, together with metadata whose `size` equals the content's
length. -/
theorem loadFromCache_saveToCache_roundTrip (fs : CacheFS)
    (key content : String) (meta : PartialRepoMetadata) (nowIso nowIso2 : String) :
    loadFromCache (saveToCache fs key content meta nowIso) key nowIso2 =
      some { content := content, metadata := fullMetadata meta content nowIso } ∧
    (fullMetadata meta content nowIso).size = content.length := by
  refine ⟨?_, rfl⟩
  simp [loadFromCache, saveToCache, writeContent, writeMeta]

/-- Claim C4: `generateCacheKey` is a pure, deterministic function of
`(repoUrl, commitSha)`: identical inputs give identical keys and the key
is a fixed-length (64 hex characters) identifier; differing revisions
yield differing keys (exhibited on a concrete pair — full collision
resistance is a cryptographic property of SHA-256, outside proof). -/
theorem generateCacheKey_pure_deterministic_fixedLength :
    (∀ repoUrl commitSha : String,
      generateCacheKey repoUrl commitSha = generateCacheKey repoUrl commitSha ∧
      (generateCacheKey repoUrl commitSha).length = 64) ∧
    generateCacheKey "https://github.com/a/b" "e83c5163316f89bfbde7d9ab23ca2e25604af290" ≠
      generateCacheKey "https://github.com/a/b" "latest" := by
  refine ⟨fun u s => ⟨rfl, sha256hex_length _⟩, ?_⟩
  set_option maxRecDepth 10000 in decide

/-- Claim C5: when the content file for a key exists, `loadFromCache`
returns the content even if the metadata sidecar is missing or does not
parse, synthesizing a metadata record whose `size` is the content
length. -/
theorem loadFromCache_toleratesCorruptMetadata (fs : CacheFS)
    (key content nowIso : String)
    (hcontent : fs.contentFiles key = some content)
    (hmeta : fs.metaFiles key = none ∨ fs.metaFiles key = some .corrupt) :
    loadFromCache fs key nowIso =
      some { content := content,
             metadata := { repoUrl := "", commitSha := "",
                           size := content.length, cachedAt := nowIso } } := by
  rcases hmeta with h | h <;> simp [loadFromCache, hcontent, h]

def fsCorrupt : CacheFS := ⟨fun _ => some "DATA", fun _ => some .corrupt⟩

/-- Witness for C5 at a concrete store with a corrupt sidecar. -/
theorem loadFromCache_toleratesCorruptMetadata_witness :
    loadFromCache fsCorrupt "k" "2026-01-01" =
      some { content := "DATA",
             metadata := { repoUrl := "", commitSha := "", size := 4,
                           cachedAt := "2026-01-01" } } :=
  loadFromCache_toleratesCorruptMetadata fsCorrupt "k" "DATA" "2026-01-01" rfl (Or.inr rfl)

/-- Claim C10: a parsed tool invocation whose name is not
`pack_repository` is skipped entirely: the loop state (tool-call records,
messages, response, cache key, traces) is unchanged. -/
theorem stepCall_skipsUnknownTools (cenv : ChatEnv) (st : LoopState)
    (call : ParsedToolCall) (h : call.name ≠ "pack_repository") :
    stepCall cenv st call = st := by
  simp [stepCall, h]

def newMsg (role content : String) : ChatMessage := ⟨role, content, none⟩

def chatEnvW : ChatEnv :=
  { penv := { apiResponse := fun _ => .notOk, cloneOk := true,
              revParse := some "abc\n", packOk := true, readContent := some "P",
              saveOutcome := .okSave, nowMs := 7, nowIso := "t", tempDir := "./temp" }
    firstResp := fun _ _ => ⟨newMsg "assistant" "hello", []⟩
    secondResp := fun _ _ => ⟨newMsg "assistant" "with context", []⟩ }

def loopStW : LoopState :=
  { fs := emptyFS, messages := [], response := ⟨newMsg "assistant" "hello", []⟩,
    toolCalls := [], finalCacheKey := none, modelCalls := 1, trace := [] }

/-- Witness for C10 at a concrete invocation named `web_search`. -/
theorem stepCall_skipsUnknownTools_witness :
    stepCall chatEnvW loopStW ⟨"call-1", "web_search", "https://github.com/a/b", none⟩ =
      loopStW :=
  stepCall_skipsUnknownTools chatEnvW loopStW _ (by decide)

/-- Claim C2: when the cache holds an entry under the key derived from the
optimistically resolved revision and `forceRefresh` is `false`,
`processRepo` returns that entry with `fromCache = true` and that key, the
cache is untouched, no workspace directory exists afterwards, and no side
effect (clone, pack, cache write) is performed (empty trace). -/
theorem processRepo_cacheHit_shortCircuit (env : Env) (fs : CacheFS)
    (repoUrl : String) (cached : CachedRepo)
    (h : loadFromCache fs
          (generateCacheKey repoUrl (getLatestCommitShaFromGithub env repoUrl))
          env.nowIso = some cached) :
    processRepo env fs repoUrl false =
      { result := .ok
          { cacheKey := generateCacheKey repoUrl (getLatestCommitShaFromGithub env repoUrl),
            fromCache := true,
            repoUrl := some cached.metadata.repoUrl,
            commitSha := some cached.metadata.commitSha,
            size := some cached.metadata.size,
            cachedAt := some cached.metadata.cachedAt },
        fs := fs, dirs := [], trace := [] } := by
  simp [processRepo, h]

def fsAllHit : CacheFS := ⟨fun _ => some "CTX", fun _ => none⟩

def envW2 : Env :=
  { apiResponse := fun _ => .notOk, cloneOk := true, revParse := some "abc\n",
    packOk := true, readContent := some "P", saveOutcome := .okSave,
    nowMs := 7, nowIso := "t", tempDir := "./temp" }

/-- Witness for C2 at a concrete store holding an entry for every key. -/
theorem processRepo_cacheHit_shortCircuit_witness :
    processRepo envW2 fsAllHit "u" false =
      { result := .ok
          { cacheKey := generateCacheKey "u" (getLatestCommitShaFromGithub envW2 "u"),
            fromCache := true, repoUrl := some "", commitSha := some "",
            size := some 3, cachedAt := some "t" },
        fs := fsAllHit, dirs := [], trace := [] } :=
  processRepo_cacheHit_shortCircuit envW2 fsAllHit "u"
    ⟨"CTX", ⟨"", "", 3, "t"⟩⟩ rfl

/-- Claim C9: with `forceRefresh = true` both cache-hit checks are skipped
(the conclusion holds for an arbitrary pre-existing cache), the clone and
pack steps run, the entry is written under the recomputed (authoritative)
key, and the result has `fromCache = false` with that key. -/
theorem processRepo_forceRefresh (env : Env) (fs : CacheFS)
    (repoUrl content : String)
    (hclone : env.cloneOk = true) (hpack : env.packOk = true)
    (hread : env.readContent = some content)
    (hsave : env.saveOutcome = .okSave) :
    (processRepo env fs repoUrl true).result =
      .ok { cacheKey := generateCacheKey repoUrl (getCommitSha env),
            fromCache := false, repoUrl := some repoUrl,
            commitSha := some (getCommitSha env), size := some content.length } ∧
    (processRepo env fs repoUrl true).fs.contentFiles
        (generateCacheKey repoUrl (getCommitSha env)) = some content ∧
    (processRepo env fs repoUrl true).fs.metaFiles
        (generateCacheKey repoUrl (getCommitSha env)) =
      some (.valid { repoUrl := repoUrl, commitSha := getCommitSha env,
                     size := content.length, cachedAt := env.nowIso }) ∧
    Event.cloned (repoPathOf env repoUrl) ∈ (processRepo env fs repoUrl true).trace ∧
    Event.packAttempted (repoPathOf env repoUrl) ∈ (processRepo env fs repoUrl true).trace ∧
    Event.savedCache (generateCacheKey repoUrl (getCommitSha env)) ∈
      (processRepo env fs repoUrl true).trace ∧
    (processRepo env fs repoUrl true).dirs = [] := by
  simp [processRepo, processRepoTry, hclone, hpack, hread, hsave,
        saveToCache, writeContent, writeMeta, fullMetadata]

/-- Witness for C9 at a concrete environment and a store already holding
an entry for every key (the checks are nevertheless skipped). -/
theorem processRepo_forceRefresh_witness :
    (processRepo envW2 fsAllHit "https://github.com/a/b" true).result =
      .ok { cacheKey := generateCacheKey "https://github.com/a/b" (getCommitSha envW2),
            fromCache := false, repoUrl := some "https://github.com/a/b",
            commitSha := some (getCommitSha envW2), size := some 1 } ∧
    (processRepo envW2 fsAllHit "https://github.com/a/b" true).dirs = [] :=
  ⟨(processRepo_forceRefresh envW2 fsAllHit "https://github.com/a/b" "P"
      rfl rfl rfl rfl).1,
   (processRepo_forceRefresh envW2 fsAllHit "https://github.com/a/b" "P"
      rfl rfl rfl rfl).2.2.2.2.2.2⟩

/-- `true` iff the API response is not an OK response (a non-OK status or
a network rejection) — the cases the source treats as failure. -/
def ApiResult.failed : ApiResult → Bool
  | .ok _ => false
  | _ => true

/-- Claim C8: `getLatestCommitShaFromGithub` never raises.  With the
request URLs built from the parsed owner/repo: an unparseable URL yields
the sentinel `latest`; an OK `main` response yields its sha; a non-OK
`main` response retries `master` and takes its sha when OK; when `main`
fails by rejection, or `master` also fails, the sentinel `latest` is
returned.  The returned revision — sentinel included — is the one from
which `processRepo` derives the cache key it checks first. -/
theorem getLatestCommitSha_totalWithSentinel (env : Env) (repoUrl : String) :
    (matchGithub repoUrl = none →
      getLatestCommitShaFromGithub env repoUrl = "latest") ∧
    (∀ owner repo,
      matchGithub repoUrl = some (owner, repo) →
      let base := "https://api.github.com/repos/" ++ owner ++ "/" ++
        removeFirst repo ".git"
      ((∀ sha, env.apiResponse (base ++ "/commits/main") = .ok sha →
          getLatestCommitShaFromGithub env repoUrl = sha) ∧
       (env.apiResponse (base ++ "/commits/main") = .netErr →
          getLatestCommitShaFromGithub env repoUrl = "latest") ∧
       (env.apiResponse (base ++ "/commits/main") = .notOk →
         (∀ sha, env.apiResponse (base ++ "/commits/master") = .ok sha →
            getLatestCommitShaFromGithub env repoUrl = sha) ∧
         ((env.apiResponse (base ++ "/commits/master")).failed = true →
            getLatestCommitShaFromGithub env repoUrl = "latest")))) ∧
    (∀ fs cached,
      loadFromCache fs
          (generateCacheKey repoUrl (getLatestCommitShaFromGithub env repoUrl))
          env.nowIso = some cached →
      (processRepo env fs repoUrl false).result =
        .ok { cacheKey :=
                generateCacheKey repoUrl (getLatestCommitShaFromGithub env repoUrl),
              fromCache := true,
              repoUrl := some cached.metadata.repoUrl,
              commitSha := some cached.metadata.commitSha,
              size := some cached.metadata.size,
              cachedAt := some cached.metadata.cachedAt }) := by
  refine ⟨fun h => by simp [getLatestCommitShaFromGithub, h], ?_, ?_⟩
  · intro owner repo h
    refine ⟨?_, ?_, ?_⟩
    · intro sha hmain
      simp [getLatestCommitShaFromGithub, h, hmain]
    · intro hmain
      simp [getLatestCommitShaFromGithub, h, hmain]
    · intro hmain
      constructor
      · intro sha hmaster
        simp [getLatestCommitShaFromGithub, h, hmain, hmaster]
      · intro hmaster
        cases hm : env.apiResponse
            ("https://api.github.com/repos/" ++ owner ++ "/" ++
              removeFirst repo ".git" ++ "/commits/master") with
        | ok sha => rw [hm] at hmaster; simp [ApiResult.failed] at hmaster
        | notOk => simp [getLatestCommitShaFromGithub, h, hmain, hm]
        | netErr => simp [getLatestCommitShaFromGithub, h, hmain, hm]
  · intro fs cached h
    simp [processRepo, h]

def envBothFail : Env :=
  { apiResponse := fun _ => .notOk, cloneOk := false, revParse := none,
    packOk := false, readContent := none, saveOutcome := .okSave,
    nowMs := 7, nowIso := "t", tempDir := "./temp" }

/-- Witness for C8: a parseable URL whose `main` and `master` queries both
return non-OK responses resolves to the sentinel `latest`. -/
theorem getLatestCommitSha_totalWithSentinel_witness :
    getLatestCommitShaFromGithub envBothFail "https://github.com/o/r" = "latest" :=
  (((getLatestCommitSha_totalWithSentinel envBothFail
      "https://github.com/o/r").2.1 "o" "r" (by decide)).2.2 rfl).2 rfl

/-- Claim C1: on every run of `processRepo`, whenever the clone step
returned a workspace path, cleanup is invoked on that path before the run
exits — on the success paths and on every throwing path alike — so no
workspace directory survives the run; and if the packing step (or any step
before the cache write completes its first write) throws, the cache is
exactly as before: no partial entry is visible. -/
theorem processRepo_cleanupGuarantee (env : Env) (fs : CacheFS)
    (repoUrl : String) (forceRefresh : Bool) :
    (processRepo env fs repoUrl forceRefresh).dirs = [] ∧
    (∀ p, Event.cloned p ∈ (processRepo env fs repoUrl forceRefresh).trace →
      Event.cleanedUp p ∈ (processRepo env fs repoUrl forceRefresh).trace) ∧
    (env.packOk = false → (processRepo env fs repoUrl forceRefresh).fs = fs) := by
  cases hf : forceRefresh <;>
  cases h0 : loadFromCache fs
    (generateCacheKey repoUrl (getLatestCommitShaFromGithub env repoUrl))
    env.nowIso <;>
  cases hc : env.cloneOk <;>
  cases h1 : loadFromCache fs
    (generateCacheKey repoUrl (getCommitSha env)) env.nowIso <;>
  cases hp : env.packOk <;>
  cases hr : env.readContent <;>
  cases hs : env.saveOutcome <;>
  simp [processRepo, processRepoTry, hf, h0, hc, h1, hp, hr, hs]

def envPackFail : Env :=
  { apiResponse := fun _ => .notOk, cloneOk := true, revParse := some "abc\n",
    packOk := false, readContent := none, saveOutcome := .okSave,
    nowMs := 7, nowIso := "t", tempDir := "./temp" }

/-- Witness for C1: a run whose packing step throws still ends with no
workspace directory, a cleanup event for the cloned path, and an
unchanged cache. -/
theorem processRepo_cleanupGuarantee_witness :
    (processRepo envPackFail emptyFS "https://github.com/a/b" false).dirs = [] ∧
    Event.cleanedUp "./temp/b-7" ∈
      (processRepo envPackFail emptyFS "https://github.com/a/b" false).trace ∧
    (processRepo envPackFail emptyFS "https://github.com/a/b" false).fs = emptyFS :=
  ⟨(processRepo_cleanupGuarantee envPackFail emptyFS "https://github.com/a/b" false).1,
   (processRepo_cleanupGuarantee envPackFail emptyFS "https://github.com/a/b" false).2.1
     "./temp/b-7" (by decide),
   (processRepo_cleanupGuarantee envPackFail emptyFS "https://github.com/a/b" false).2.2
     rfl⟩

/-- Claim C7: an invocation whose pipeline run throws gets its error
recorded in its tool-call record and changes nothing else of the loop
state — in particular no second model call happens for it and the
response text is untouched; the loop keeps folding over the remaining
invocations; and a turn whose single invocation fails still returns the
first model call's message text together with the error record. -/
theorem chatTurn_toolFailure_degraded :
    (∀ (cenv : ChatEnv) (st : LoopState) (call : ParsedToolCall) (e : String),
      call.name = "pack_repository" →
      (processRepo cenv.penv st.fs call.repoUrl (call.forceRefresh.getD false)).result
        = .error e →
      stepCall cenv st call =
        { st with
          fs := (processRepo cenv.penv st.fs call.repoUrl
                  (call.forceRefresh.getD false)).fs
          toolCalls := st.toolCalls ++
            [{ tool := call.name, repoUrl := call.repoUrl,
               forceRefresh := call.forceRefresh, result := none, error := some e }]
          trace := st.trace ++
            (processRepo cenv.penv st.fs call.repoUrl
              (call.forceRefresh.getD false)).trace }) ∧
    (∀ (cenv : ChatEnv) (st : LoopState) (call : ParsedToolCall)
        (rest : List ParsedToolCall),
      runLoop cenv st (call :: rest) = runLoop cenv (stepCall cenv st call) rest) ∧
    (∀ (cenv : ChatEnv) (fs0 : CacheFS) (history : List ChatMessage)
        (userMessage : String) (call : ParsedToolCall) (e : String),
      (cenv.firstResp (history ++ [{ role := "user", content := userMessage }])
          none).toolCallsOf = [call] →
      call.name = "pack_repository" →
      (processRepo cenv.penv fs0 call.repoUrl (call.forceRefresh.getD false)).result
        = .error e →
      chatTurn cenv fs0 history userMessage none =
        { response :=
            (cenv.firstResp (history ++ [{ role := "user", content := userMessage }])
              none).message.content,
          toolCalls := [{ tool := call.name, repoUrl := call.repoUrl,
                          forceRefresh := call.forceRefresh, result := none,
                          error := some e }],
          cacheKey := none,
          trace := (processRepo cenv.penv fs0 call.repoUrl
            (call.forceRefresh.getD false)).trace }) := by
  refine ⟨?_, ?_, ?_⟩
  · intro cenv st call e hname herr
    simp [stepCall, hname, herr]
  · intro cenv st call rest
    rfl
  · intro cenv fs0 history userMessage call e hcalls hname herr
    simp [chatTurn, runLoop, hcalls, stepCall, hname, herr]

def callW : ParsedToolCall := ⟨"c1", "pack_repository", "https://github.com/a/b", none⟩

def cenvCloneFail : ChatEnv :=
  { penv := { apiResponse := fun _ => .notOk, cloneOk := false, revParse := none,
              packOk := false, readContent := none, saveOutcome := .okSave,
              nowMs := 7, nowIso := "t", tempDir := "./temp" }
    firstResp := fun _ _ => ⟨newMsg "assistant" "packing now", [callW]⟩
    secondResp := fun _ _ => ⟨newMsg "assistant" "with context", []⟩ }

/-- Witness for C7: a turn whose single tool invocation fails at the clone
step returns the first model call's text and one error record. -/
theorem chatTurn_toolFailure_degraded_witness :
    chatTurn cenvCloneFail emptyFS [] "analyze this repo" none =
      { response := "packing now",
        toolCalls := [{ tool := "pack_repository",
                        repoUrl := "https://github.com/a/b",
                        forceRefresh := none, result := none,
                        error := some "Failed to clone repository" }],
        cacheKey := none,
        trace := [] } :=
  chatTurn_toolFailure_degraded.2.2 cenvCloneFail emptyFS [] "analyze this repo"
    callW "Failed to clone repository" rfl rfl rfl

def envRun : Env :=
  { apiResponse := fun _ => .notOk, cloneOk := true, revParse := some "f00dfeed\n",
    packOk := true, readContent := some "PACKED", saveOutcome := .okSave,
    nowMs := 1000, nowIso := "2026-01-01T00:00:00.000Z", tempDir := "./temp" }

/-- Counterexample to Claim C6: `processRepo` performs no source-location
validation.  On the unsupported location `https://gitlab.com/acme/widget`
(with the clone and pack subprocesses succeeding, as they would for a real
GitLab repository) the run does not fail fast — it returns successfully —
and a workspace directory is created. -/
theorem processRepo_noSourceValidation_counterexample :
    isOkResult
      (processRepo envRun emptyFS "https://gitlab.com/acme/widget" false).result
      = true ∧
    Event.cloned "./temp/widget-1000" ∈
      (processRepo envRun emptyFS "https://gitlab.com/acme/widget" false).trace := by
  exact ⟨rfl, by decide⟩

/-- On an empty cache, a run with a succeeding clone step always creates a
workspace (a `cloned` event is in the trace), whatever the URL. -/
theorem cloned_mem_processRepo_trace (env : Env) (repoUrl : String) (force : Bool)
    (hclone : env.cloneOk = true) :
    Event.cloned (repoPathOf env repoUrl) ∈
      (processRepo env emptyFS repoUrl force).trace := by
  cases hf : force <;>
  cases hp : env.packOk <;>
  cases hr : env.readContent <;>
  cases hs : env.saveOutcome <;>
  simp [processRepo, processRepoTry, loadFromCache, emptyFS, hclone, hf, hp, hr, hs]

/-- For a `pack_repository` invocation, the chat loop's step appends
exactly the pipeline's trace to the loop trace (result and error case
alike). -/
theorem stepCall_trace_append (cenv : ChatEnv) (st : LoopState)
    (call : ParsedToolCall) (hname : call.name = "pack_repository") :
    (stepCall cenv st call).trace =
      st.trace ++
        (processRepo cenv.penv st.fs call.repoUrl
          (call.forceRefresh.getD false)).trace := by
  cases hres : (processRepo cenv.penv st.fs call.repoUrl
      (call.forceRefresh.getD false)).result with
  | ok r =>
    cases hload : loadFromCache
        (processRepo cenv.penv st.fs call.repoUrl (call.forceRefresh.getD false)).fs
        r.cacheKey cenv.penv.nowIso <;>
      simp [stepCall, hname, hres, hload]
  | error e => simp [stepCall, hname, hres]

/-- Claim C6 amended: only the direct `POST /repo/pack` route validates the
source location (URLs without `github.com` are rejected with the
descriptive 400 error before any pipeline work, with no workspace
created); `processRepo` itself performs no validation, and a
`pack_repository` invocation arriving through the chat tool path proceeds
into the pipeline — with a succeeding clone step it creates a workspace
for any URL whatsoever. -/
theorem sourceValidation_onlyInPackRoute (env : Env) (fs : CacheFS) (u : String)
    (force : Bool) (cenv : ChatEnv) (st : LoopState) (call : ParsedToolCall)
    (hu : containsSub u "github.com" = false) (hne : u ≠ "")
    (hname : call.name = "pack_repository") (hclone : cenv.penv.cloneOk = true)
    (hfs : st.fs = emptyFS) :
    packHandler env fs (some u) force =
      { status := 400, error := some "Only GitHub URLs are supported currently",
        result := none, fs := fs, trace := [] } ∧
    Event.cloned (repoPathOf cenv.penv call.repoUrl) ∈
      (stepCall cenv st call).trace := by
  constructor
  · simp [packHandler, hne, hu]
  · rw [stepCall_trace_append cenv st call hname, hfs]
    exact List.mem_append_right _
      (cloned_mem_processRepo_trace cenv.penv call.repoUrl
        (call.forceRefresh.getD false) hclone)

def cenvRun : ChatEnv :=
  { penv := envRun
    firstResp := fun _ _ => ⟨newMsg "assistant" "on it", []⟩
    secondResp := fun _ _ => ⟨newMsg "assistant" "done", []⟩ }

def stRun : LoopState :=
  { fs := emptyFS, messages := [], response := ⟨newMsg "assistant" "on it", []⟩,
    toolCalls := [], finalCacheKey := none, modelCalls := 1, trace := [] }

def callGitlab : ParsedToolCall :=
  ⟨"c2", "pack_repository", "https://gitlab.com/acme/widget", none⟩

/-- Witness for the amended C6 at the concrete GitLab URL. -/
theorem sourceValidation_onlyInPackRoute_witness :
    packHandler envRun emptyFS (some "https://gitlab.com/acme/widget") false =
      { status := 400, error := some "Only GitHub URLs are supported currently",
        result := none, fs := emptyFS, trace := [] } ∧
    Event.cloned (repoPathOf envRun "https://gitlab.com/acme/widget") ∈
      (stepCall cenvRun stRun callGitlab).trace :=
  sourceValidation_onlyInPackRoute envRun emptyFS "https://gitlab.com/acme/widget"
    false cenvRun stRun callGitlab (by decide) (by decide) rfl rfl rfl
